import Mathlib

set_option maxRecDepth 4000

/-!
Verification development for the M-Team auto-login repository.

The definitions below are shallow embeddings of the functions in
src/gmail_client.py and src/mteam_login.py.  Strings are modelled as
List Char (Python str); Unix timestamps as Int (seconds); regex
searches from the code-extraction routine are modelled by explicit
scanning functions with fuel that makes them structurally recursive
and hence kernel-evaluable.
-/

/-! ## Character classes

The patterns in gmail_client._extract_code_from_email (lines 402-412)
use the regex classes for digits, word separators and alphanumerics.
The digit class is modelled by explicit membership in the ten ASCII
digits (Python matches a few more Unicode digits under re.UNICODE;
the messages this program handles are ASCII-digit codes).
-/

def digitChars : List Char := ['0', '1', '2', '3', '4', '5', '6', '7', '8', '9']

def isDigitC (c : Char) : Bool := digitChars.contains c

def isSpaceC (c : Char) : Bool := c.isWhitespace

def isAlnumC (c : Char) : Bool := c.isAlpha || isDigitC c

/-- Separator class inside the labelled patterns: full-width colon,
ASCII colon, or whitespace. -/
def isSepC (c : Char) : Bool := c = '：' || c = ':' || isSpaceC c

/-! ## Regex findall models

Each of the eight patterns of gmail_client.py lines 403-412 gets a
scanning function computing, in order, the list of captured groups
that Python re.findall would return (leftmost, non-overlapping,
greedy).  All patterns are applied with the IGNORECASE and MULTILINE
flags (line 415-416).
-/

/-- Six consecutive digit characters start the list. -/
def check6 (s : List Char) : Bool :=
  (s.take 6).length == 6 && (s.take 6).all isDigitC

/-- Scanner for the pattern of six digits (pattern 1, line 404). -/
def findallD6Fuel : Nat → List Char → List (List Char)
  | 0, _ => []
  | _ + 1, [] => []
  | fuel + 1, c :: cs =>
    if check6 (c :: cs) then
      (c :: cs).take 6 :: findallD6Fuel fuel ((c :: cs).drop 6)
    else
      findallD6Fuel fuel cs

def findallD6 (s : List Char) : List (List Char) := findallD6Fuel s.length s

/-- Scanner for the pattern of four to eight digits, greedy
(pattern 2, line 405). -/
def findallD48Fuel : Nat → List Char → List (List Char)
  | 0, _ => []
  | _ + 1, [] => []
  | fuel + 1, c :: cs =>
    if 4 ≤ ((c :: cs).takeWhile isDigitC).length then
      ((c :: cs).takeWhile isDigitC).take 8 ::
        findallD48Fuel fuel ((c :: cs).drop (min ((c :: cs).takeWhile isDigitC).length 8))
    else
      findallD48Fuel fuel cs

def findallD48 (s : List Char) : List (List Char) := findallD48Fuel s.length s

/-- Case-insensitive literal prefix removal (the labels are matched
under re.IGNORECASE; Char.toLower lowers ASCII letters only, which is
what the ASCII and CJK labels need). -/
def dropLabelCI : List Char → List Char → Option (List Char)
  | [], s => some s
  | _ :: _, [] => none
  | l :: ls, c :: cs => if c.toLower == l.toLower then dropLabelCI ls cs else none

/-- At the current position, match "label, then a run of separators,
then a greedy run of 4 to 8 class characters"; the captured group is
the class run.  Returns the group and the remainder after the match. -/
def labelMatchAt (label : List Char) (cls : Char → Bool) (s : List Char) :
    Option (List Char × List Char) :=
  match dropLabelCI label s with
  | none => none
  | some rest1 =>
    if 4 ≤ ((rest1.dropWhile isSepC).takeWhile cls).length then
      some (((rest1.dropWhile isSepC).takeWhile cls).take 8,
        (rest1.dropWhile isSepC).drop (min ((rest1.dropWhile isSepC).takeWhile cls).length 8))
    else none

/-- Scanner for the labelled patterns (patterns 3 to 7, lines 406-410). -/
def findallLabelFuel (label : List Char) (cls : Char → Bool) :
    Nat → List Char → List (List Char)
  | 0, _ => []
  | _ + 1, [] => []
  | fuel + 1, c :: cs =>
    match labelMatchAt label cls (c :: cs) with
    | some (g, rest) => g :: findallLabelFuel label cls fuel rest
    | none => findallLabelFuel label cls fuel cs

def findallLabel (label : List Char) (cls : Char → Bool) (s : List Char) :
    List (List Char) :=
  findallLabelFuel label cls s.length s

/-- At the current position (prefix branch already resolved by the
caller): exactly six alphanumerics followed by whitespace (consumed)
or end of input (pattern 8, line 411; under IGNORECASE the class
covers lower-case letters too).  Returns the group, the remainder
after the full match, and whether the remainder sits just after a
newline (for the MULTILINE line-start anchor). -/
def bareSixAt (s : List Char) : Option (List Char × List Char × Bool) :=
  if (s.take 6).length == 6 && (s.take 6).all isAlnumC then
    match s.drop 6 with
    | [] => some (s.take 6, [], false)
    | d :: ds => if isSpaceC d then some (s.take 6, ds, d == '\n') else none
  else none

/-- Scanner for pattern 8: a six-character alphanumeric token bounded
by line start or whitespace on the left and whitespace or line end on
the right.  The Bool argument records whether the scan position is at
the start of a line. -/
def findallBareSixFuel : Nat → Bool → List Char → List (List Char)
  | 0, _, _ => []
  | _ + 1, _, [] => []
  | fuel + 1, atStart, c :: cs =>
    match (if atStart then bareSixAt (c :: cs) else none) with
    | some (g, rest, flag) => g :: findallBareSixFuel fuel flag rest
    | none =>
      if isSpaceC c then
        match bareSixAt cs with
        | some (g, rest, flag) => g :: findallBareSixFuel fuel flag rest
        | none => findallBareSixFuel fuel (c == '\n') cs
      else
        findallBareSixFuel fuel (c == '\n') cs

def findallBareSix (s : List Char) : List (List Char) :=
  findallBareSixFuel s.length true s

/-! ## Code selection (gmail_client.py lines 402-431) -/

/-- The stoplist of common false positives (line 420). -/
def stoplist : List (List Char) :=
  [ "image".data, "style".data, "class".data, "width".data, "height".data, "color".data ]

def toLowerList (s : List Char) : List Char := s.map Char.toLower

/-- Python str.strip(): whitespace removed from both ends. -/
def stripList (s : List Char) : List Char :=
  ((s.dropWhile isSpaceC).reverse.dropWhile isSpaceC).reverse

def inStop (s : List Char) : Bool := stoplist.any (fun w => w == toLowerList s)

def isDigits (s : List Char) : Bool := s.all isDigitC

/-- The inner selection loop over one pattern's matches
(lines 417-428): strip, length and stoplist check, then return the
first surviving match (six-digit matches via the dedicated branch). -/
def pickCode : List (List Char) → Option (List Char)
  | [] => none
  | m :: rest =>
    if 4 ≤ (stripList m).length ∧ inStop (stripList m) = false then
      if (stripList m).length = 6 ∧ isDigits (stripList m) = true then some (stripList m)
      else if 4 ≤ (stripList m).length then some (stripList m)
      else pickCode rest
    else pickCode rest

/-- The ordered pattern table of lines 403-412. -/
def codePatterns : List (List Char → List (List Char)) :=
  [ findallD6,
    findallD48,
    findallLabel ("验证码".data) isDigitC,
    findallLabel ("verification code".data) isDigitC,
    findallLabel ("code".data) isDigitC,
    findallLabel ("验证码".data) isAlnumC,
    findallLabel ("verification code".data) isAlnumC,
    findallBareSix ]

def extractCodeGo : List (List Char → List (List Char)) → List Char → Option (List Char)
  | [], _ => none
  | p :: ps, body =>
    match pickCode (p body) with
    | some c => some c
    | none => extractCodeGo ps body

/-- The pattern loop of gmail_client._extract_code_from_email
(lines 402-431), applied to an already-decoded body. -/
def extractCode (body : List Char) : Option (List Char) :=
  extractCodeGo codePatterns body

/-- Whether the body contains six consecutive digit characters. -/
def hasDigitRun6 : List Char → Bool
  | [] => false
  | c :: cs => check6 (c :: cs) || hasDigitRun6 cs

/-! ## Message bodies (gmail_client._get_email_body, lines 437-474)

A message is either multipart (the walk over its leaf parts) or a
single-part message.  A part carries its content type, the string form
of its Content-Disposition header (Python renders a missing header as
"None"), and its decoded payload (none models a None payload).
-/

structure MimePart where
  ctype : List Char
  disposition : List Char
  payload : Option (List Char)
deriving DecidableEq

inductive MimeMessage where
  | multipart (parts : List MimePart)
  | single (payload : Option (List Char))
deriving DecidableEq

/-- Substring test (Python `needle in hay`). -/
def substrOf : List Char → List Char → Bool
  | n, [] => n == []
  | n, c :: cs => n.isPrefixOf (c :: cs) || substrOf n cs

/-- One step of the body accumulation loop (lines 451-464): skip
attachment parts, append the decoded payload of text/plain and
text/html parts when it is truthy. -/
def addPart (acc : List Char) (p : MimePart) : List Char :=
  if substrOf ("attachment".data) p.disposition then acc
  else if p.ctype == "text/plain".data || p.ctype == "text/html".data then
    match p.payload with
    | some s => if s ≠ [] then acc ++ s else acc
    | none => acc
  else acc

/-- gmail_client._get_email_body: for a multipart message the
concatenation of all textual parts; for a single-part message the
decoded payload as is (a None payload falls through and the function
returns None despite its str annotation). -/
def getEmailBody : MimeMessage → Option (List Char)
  | .multipart parts => some (parts.foldl addPart [])
  | .single p => p

/-! ## Per-message processing (gmail_client._extract_code_from_email) -/

/-- A fetched candidate message: the parsed Date header as a Unix
timestamp (none when the header is missing or unparseable, in which
case lines 374-389 fall through and keep processing), and the MIME
content. -/
structure EmailMsg where
  date : Option Int
  msg : MimeMessage
deriving DecidableEq

/-- Body extraction part of _extract_code_from_email (lines 393-431):
an empty or missing body yields None, otherwise the pattern loop runs. -/
def extractFromBody (m : MimeMessage) : Option (List Char) :=
  match getEmailBody m with
  | none => none
  | some b => if b = [] then none else extractCode b

/-- gmail_client._extract_code_from_email after a successful fetch:
when a sent_after_time was supplied and the Date header parses, a
message with timestamp strictly below sent_after_time is skipped
(lines 373-389); otherwise the body is processed. -/
def extractCodeFromEmail (sentAfter : Option Int) (m : EmailMsg) : Option (List Char) :=
  match sentAfter, m.date with
  | some lo, some t => if t < lo then none else extractFromBody m.msg
  | _, _ => extractFromBody m.msg

/-! ## Search time bound (gmail_client.py lines 113-124)

With a sent_after_time the IMAP SINCE criterion is built from
sent_after_time minus 120 seconds; otherwise from now minus 5 minutes.
Either way strftime renders only the day, so the effective bound is
the start of that day (the day is taken in the local timezone; the
model floors against fixed 86400-second days).
-/

def guardSeconds : Int := 120

def dayFloor (t : Int) : Int := t - t.emod 86400

def searchSinceBound (now : Int) (sentAfter : Option Int) : Int :=
  match sentAfter with
  | some lo => dayFloor (lo - guardSeconds)
  | none => dayFloor (now - 300)

/-! ## The IMAP polling flow (gmail_client.get_verification_code_via_imap)

The effectful primitives are supplied by an environment: the outcome
of each connect attempt, of each login attempt, of the inbox select,
the candidate messages processed during each search attempt (the two
sub-passes and twelve criteria of lines 157-245 flattened into one
newest-first list per attempt), the extra seconds each attempt takes
beyond the fixed 1-second inter-sub-pass sleep, and whether close or
logout raises.  Elapsed time counts the modelled sleeps, in seconds.
-/

structure GmailEnv where
  connectFail : Nat → Bool
  loginErr : Nat → Option (List Char)
  selectFail : Bool
  candidates : Nat → List EmailMsg
  extraDur : Nat → Int
  closeFail : Bool
  logoutFail : Bool

/-- Connection retry loop, lines 56-68: three attempts, raising after
the third failure.  True means a connection was established. -/
def connectLoopFuel (connectFail : Nat → Bool) : Nat → Nat → Bool
  | 0, _ => false
  | fuel + 1, i =>
    if connectFail i then
      if i < 3 - 1 then connectLoopFuel connectFail fuel (i + 1) else false
    else true

def connectLoopOk (env : GmailEnv) : Bool := connectLoopFuel env.connectFail 3 0

/-- Authentication retry loop, lines 79-108: two attempts, a second
attempt only when the first error message contains "SSL"; otherwise
the login error is re-raised.  Returns the number of login calls made
and the raised message, if any. -/
def authLoopFuel (loginErr : Nat → Option (List Char)) : Nat → Nat → Nat × Option (List Char)
  | 0, i => (i, none)
  | fuel + 1, i =>
    match loginErr i with
    | none => (i + 1, none)
    | some msg =>
      if i < 2 - 1 ∧ substrOf ("SSL".data) msg = true then
        authLoopFuel loginErr fuel (i + 1)
      else (i + 1, some msg)

def authLoop (loginErr : Nat → Option (List Char)) : Nat × Option (List Char) :=
  authLoopFuel loginErr 2 0

/-- First code found while scanning one attempt's candidates
newest-first (lines 194-245). -/
def firstSome : List (Option (List Char)) → Option (List Char)
  | [] => none
  | some a :: _ => some a
  | none :: rest => firstSome rest

def attemptFind (sentAfter : Option Int) (env : GmailEnv) (k : Nat) : Option (List Char) :=
  firstSome (((env.candidates k).map (extractCodeFromEmail sentAfter)))

/-- Outcome of the search loop: a code with the elapsed time and the
number of attempts made, or exhaustion. -/
inductive LoopOutcome where
  | found (code : List Char) (t : Int) (attempts : Nat)
  | exhausted (t : Int) (attempts : Nat)
deriving DecidableEq

/-- The while loop of lines 137-264.  Guard: elapsed time below
timeout and fewer than 5 attempts.  Each attempt runs its two
sub-passes (the mandatory 1-second sleep of line 161 plus the
attempt's own duration); on failure the backoff of lines 252-264
sleeps min 5 (remaining - 2) seconds when more than 5 seconds remain
and attempts are left, and otherwise breaks out of the loop. -/
def searchLoopFuel (timeout : Int) (find : Nat → Option (List Char)) (extraDur : Nat → Int) :
    Nat → Int → Nat → LoopOutcome
  | 0, t, attempt => .exhausted t attempt
  | fuel + 1, t, attempt =>
    if t < timeout ∧ attempt < 5 then
      match find attempt with
      | some c => .found c (t + 1 + extraDur attempt) (attempt + 1)
      | none =>
        if 5 < timeout - (t + 1 + extraDur attempt) ∧ attempt + 1 < 5 then
          searchLoopFuel timeout find extraDur fuel
            (t + 1 + extraDur attempt + min 5 (timeout - (t + 1 + extraDur attempt) - 2))
            (attempt + 1)
        else if 5 ≤ attempt + 1 then .exhausted (t + 1 + extraDur attempt) (attempt + 1)
        else .exhausted (t + 1 + extraDur attempt) (attempt + 1)
    else .exhausted t attempt

def searchLoop (timeout : Int) (find : Nat → Option (List Char)) (extraDur : Nat → Int) :
    LoopOutcome :=
  searchLoopFuel timeout find extraDur 5 0 0

/-! ## The whole call and its exception boundary -/

inductive ImapErr where
  | connErr : ImapErr
  | authErr : List Char → ImapErr
  | selectErr : ImapErr
  | teardownErr : ImapErr
deriving DecidableEq

/-- An exception escaping the body of get_verification_code_via_imap,
together with the login attempts made and whether a mailbox session
was left behind un-logged-out. -/
structure ImapFailure where
  err : ImapErr
  loginAttempts : Nat
  sessionOpen : Bool
deriving DecidableEq

structure ImapRun where
  result : Option (List Char)
  loginAttempts : Nat
  sessionOpen : Bool
deriving DecidableEq

/-- The body of get_verification_code_via_imap (lines 42-287) without
its outer exception handler: connect (retried), login (retried only on
SSL-flagged errors), select, the search loop, then close and logout on
both the success and the exhaustion path (lines 235-236 and 266-267;
there is no finally block, so the no-result diagnosis of lines 269-287
runs after a successful teardown only).  The deletion block of lines
216-233 catches its own errors and does not influence the outcome. -/
def runImapInner (timeout : Int) (sentAfter : Option Int) (env : GmailEnv) :
    Except ImapFailure ImapRun :=
  if connectLoopOk env = false then
    .error ⟨.connErr, 0, false⟩
  else
    match authLoop env.loginErr with
    | (n, some msg) => .error ⟨.authErr msg, n, true⟩
    | (n, none) =>
      if env.selectFail then .error ⟨.selectErr, n, true⟩
      else
        match searchLoop timeout (attemptFind sentAfter env) env.extraDur with
        | .found c _ _ =>
          if env.closeFail then .error ⟨.teardownErr, n, true⟩
          else if env.logoutFail then .error ⟨.teardownErr, n, true⟩
          else .ok ⟨some c, n, false⟩
        | .exhausted _ _ =>
          if env.closeFail then .error ⟨.teardownErr, n, true⟩
          else if env.logoutFail then .error ⟨.teardownErr, n, true⟩
          else .ok ⟨none, n, false⟩

/-- gmail_client.get_verification_code_via_imap: the whole body sits
in one try block whose handler (lines 289-314) logs and returns None,
so every internal error surfaces as a None result. -/
def getVerificationCodeViaImap (timeout : Int) (sentAfter : Option Int) (env : GmailEnv) :
    ImapRun :=
  match runImapInner timeout sentAfter env with
  | .ok r => r
  | .error f => ⟨none, f.loginAttempts, f.sessionOpen⟩

/-- gmail_client.get_verification_code (lines 476-492): logs, then
delegates to the IMAP method unchanged. -/
def getVerificationCode (timeout : Int) (sentAfter : Option Int) (env : GmailEnv) :
    ImapRun :=
  getVerificationCodeViaImap timeout sentAfter env

/-! ## The login flow side (mteam_login.handle_email_verification) -/

structure PollerCall where
  timeout : Int
  sentAfterTime : Option Int
deriving DecidableEq

/-- The poller invocation of mteam_login.py line 745:
get_verification_code(timeout=60); the sent_after_time parameter is
not passed and defaults to None, and no send-trigger timestamp is
recorded anywhere in handle_email_verification. -/
def verificationPollerCall : PollerCall := { timeout := 60, sentAfterTime := none }

/-- The outer retry loop of mteam_login.py lines 742-750: up to five
poller invocations, stopping at the first code.  Returns the number of
invocations made and the code, if any. -/
def verificationRetryLoopFuel (poll : Nat → Option (List Char)) :
    Nat → Nat → Nat × Option (List Char)
  | 0, i => (i, none)
  | fuel + 1, i =>
    match poll i with
    | some c => (i + 1, some c)
    | none => verificationRetryLoopFuel poll fuel (i + 1)

def verificationRetryLoop (poll : Nat → Option (List Char)) : Nat × Option (List Char) :=
  verificationRetryLoopFuel poll 5 0

/-! ## Log lines carrying the mailbox address -/

/-- gmail_client.py lines 44-45: the connect log shows the first three
and (Python negative slice) the last ten characters of the address. -/
def connectLogLine (email : List Char) : List Char :=
  "正在连接Gmail IMAP服务器 (邮箱: ".data ++ email.take 3 ++ "***".data ++
    email.drop (email.length - 10) ++ ")".data

/-- mteam_login.py line 561: the address is logged in full after being
typed into the email field. -/
def fillEmailLogLine (email : List Char) : List Char :=
  "已输入邮箱地址: ".data ++ email

/-! ## Concrete scenario material shared by several claims -/

def demoBody : List Char := "您的驗證碼是 482913，请尽快使用".data

def demoMime : MimeMessage := .single (some demoBody)

/-- Environment: connection, login and select succeed; every attempt
sees one message whose Date header parses to timestamp 0. -/
def envOldMail : GmailEnv :=
  { connectFail := fun _ => false,
    loginErr := fun _ => none,
    selectFail := false,
    candidates := fun _ => [⟨some 0, demoMime⟩],
    extraDur := fun _ => 0,
    closeFail := false,
    logoutFail := false }

/-- Environment: every login attempt is rejected with an
AUTHENTICATIONFAILED error (no "SSL" in the message). -/
def envAuthFail : GmailEnv :=
  { envOldMail with
    loginErr := fun _ => some ("[AUTHENTICATIONFAILED] Invalid credentials (Failure)".data) }

/-- Environment: a message carrying a code is found at once. -/
def envFound : GmailEnv :=
  { envOldMail with candidates := fun _ => [⟨some 500, demoMime⟩] }

/-- Same, but mail.close() raises after the code is extracted. -/
def envFoundCloseFail : GmailEnv :=
  { envFound with closeFail := true }

/-- Environment: all three connect attempts fail. -/
def envConnFail : GmailEnv :=
  { envOldMail with connectFail := fun _ => true }

/-- Specification-side description of one part's contribution to the
body: none for attachments and non-textual parts, the decoded payload
(empty for a missing one) for text/plain and text/html parts.  Used to
state what _get_email_body actually computes. -/
def textPartContent (p : MimePart) : Option (List Char) :=
  if substrOf ("attachment".data) p.disposition then none
  else if p.ctype == "text/plain".data || p.ctype == "text/html".data then
    some (match p.payload with | some s => s | none => [])
  else none

def htmlPart : MimePart :=
  { ctype := "text/html".data, disposition := "None".data, payload := some ("<p>H</p>".data) }

def plainPart : MimePart :=
  { ctype := "text/plain".data, disposition := "None".data, payload := some ("P".data) }

/-! ## Helper lemmas -/

theorem isDigitC_elim {c : Char} (h : isDigitC c = true) :
    c = '0' ∨ c = '1' ∨ c = '2' ∨ c = '3' ∨ c = '4' ∨
    c = '5' ∨ c = '6' ∨ c = '7' ∨ c = '8' ∨ c = '9' := by
  simpa [isDigitC, digitChars, List.contains] using h

theorem isSpaceC_of_digit {c : Char} (h : isDigitC c = true) : isSpaceC c = false := by
  rcases isDigitC_elim h with h1 | h1 | h1 | h1 | h1 | h1 | h1 | h1 | h1 | h1 <;>
    subst h1 <;> decide

theorem toLower_of_digit {c : Char} (h : isDigitC c = true) : c.toLower = c := by
  rcases isDigitC_elim h with h1 | h1 | h1 | h1 | h1 | h1 | h1 | h1 | h1 | h1 <;>
    subst h1 <;> decide

theorem dropWhile_space_of_digits {s : List Char} (h : s.all isDigitC = true) :
    s.dropWhile isSpaceC = s := by
  cases s with
  | nil => rfl
  | cons c cs =>
    have hc : isDigitC c = true := by
      simp only [List.all_cons, Bool.and_eq_true] at h
      exact h.1
    simp [List.dropWhile_cons, isSpaceC_of_digit hc]

theorem stripList_of_digits {s : List Char} (h : s.all isDigitC = true) :
    stripList s = s := by
  unfold stripList
  rw [dropWhile_space_of_digits h]
  have h2 : s.reverse.all isDigitC = true := by simpa [List.all_reverse] using h
  rw [dropWhile_space_of_digits h2, List.reverse_reverse]

theorem toLowerList_of_digits {s : List Char} (h : s.all isDigitC = true) :
    toLowerList s = s := by
  unfold toLowerList
  have hs := List.all_eq_true.mp h
  calc s.map Char.toLower = s.map id := List.map_congr_left (fun a ha => toLower_of_digit (hs a ha))
    _ = s := List.map_id s

theorem stop_not_digits : ∀ w ∈ stoplist, w.all isDigitC = false := by decide

theorem inStop_of_digits {s : List Char} (h : s.all isDigitC = true) : inStop s = false := by
  unfold inStop
  rw [toLowerList_of_digits h]
  rw [List.any_eq_false]
  intro w hw
  intro heq
  have hws : w = s := by simpa using heq
  have := stop_not_digits w hw
  rw [hws, h] at this
  simp at this

theorem pickCode_digit6 {m : List Char} (rest : List (List Char))
    (h6 : m.length = 6) (hd : m.all isDigitC = true) :
    pickCode (m :: rest) = some m := by
  have hs : stripList m = m := stripList_of_digits hd
  simp only [pickCode, hs]
  rw [if_pos ⟨by omega, inStop_of_digits hd⟩]
  rw [if_pos ⟨h6, hd⟩]

theorem findallD6Fuel_mem :
    ∀ (fuel : Nat) (s m : List Char), m ∈ findallD6Fuel fuel s →
      m.length = 6 ∧ m.all isDigitC = true := by
  intro fuel
  induction fuel with
  | zero => intro s m h; simp [findallD6Fuel] at h
  | succ n ih =>
    intro s m h
    cases s with
    | nil => simp [findallD6Fuel] at h
    | cons c cs =>
      simp only [findallD6Fuel] at h
      by_cases hc : check6 (c :: cs) = true
      · rw [if_pos hc] at h
        rcases List.mem_cons.mp h with h1 | h2
        · subst h1
          simp only [check6, Bool.and_eq_true, beq_iff_eq] at hc
          exact hc
        · exact ih _ _ h2
      · rw [if_neg hc] at h
        exact ih _ _ h

theorem findallD6Fuel_ne :
    ∀ (fuel : Nat) (s : List Char), s.length ≤ fuel → hasDigitRun6 s = true →
      findallD6Fuel fuel s ≠ [] := by
  intro fuel
  induction fuel with
  | zero =>
    intro s hl hr
    have : s = [] := List.length_eq_zero.mp (by omega)
    subst this
    simp [hasDigitRun6] at hr
  | succ n ih =>
    intro s hl hr
    cases s with
    | nil => simp [hasDigitRun6] at hr
    | cons c cs =>
      simp only [hasDigitRun6, Bool.or_eq_true] at hr
      simp only [findallD6Fuel]
      by_cases hc : check6 (c :: cs) = true
      · rw [if_pos hc]; simp
      · rw [if_neg hc]
        rcases hr with h1 | h2
        · exact absurd h1 hc
        · exact ih cs (by simp at hl; omega) h2

/-- C4: a body containing six consecutive digits makes the first
pattern match, and the selection loop returns a six-digit all-numeric
code regardless of anything else in the text; the concrete
round-trip body yields 482913. -/
theorem c4_theorem :
    (∀ body : List Char, hasDigitRun6 body = true →
      ∃ c, extractCode body = some c ∧ c.length = 6 ∧ c.all isDigitC = true)
    ∧ extractCode ("您的驗證碼是 482913，请尽快使用".data) = some ("482913".data) := by
  constructor
  · intro body h
    cases hEq : findallD6 body with
    | nil => exact absurd hEq (findallD6Fuel_ne body.length body le_rfl h)
    | cons m ms =>
      have hm : m ∈ findallD6Fuel body.length body := by
        rw [show findallD6Fuel body.length body = findallD6 body from rfl, hEq]
        exact List.mem_cons_self _ _
      obtain ⟨h6, hd⟩ := findallD6Fuel_mem _ _ _ hm
      refine ⟨m, ?_, h6, hd⟩
      show extractCodeGo codePatterns body = some m
      simp only [codePatterns, extractCodeGo]
      rw [hEq, pickCode_digit6 ms h6 hd]
  · decide

/-- Witness for C4 at the concrete round-trip body. -/
theorem c4_witness :
    hasDigitRun6 ("您的驗證碼是 482913，请尽快使用".data) = true ∧
    ∃ c, extractCode ("您的驗證碼是 482913，请尽快使用".data) = some c ∧
      c.length = 6 ∧ c.all isDigitC = true :=
  ⟨by decide, c4_theorem.1 _ (by decide)⟩

theorem stale_skip (lo t : Int) (M : MimeMessage) (h : t < lo) :
    extractCodeFromEmail (some lo) ⟨some t, M⟩ = none := by
  show (if t < lo then none else extractFromBody M) = none
  rw [if_pos h]

theorem firstSome_mem :
    ∀ (l : List (Option (List Char))) (c : List Char), firstSome l = some c → some c ∈ l := by
  intro l
  induction l with
  | nil => intro c h; simp [firstSome] at h
  | cons o rest ih =>
    intro c h
    cases o with
    | some a =>
      simp only [firstSome, Option.some.injEq] at h
      subst h
      exact List.mem_cons_self _ _
    | none =>
      simp only [firstSome] at h
      exact List.mem_cons_of_mem _ (ih c h)

theorem attemptFind_some (sa : Option Int) (env : GmailEnv) (k : Nat) (c : List Char)
    (h : attemptFind sa env k = some c) :
    ∃ m ∈ env.candidates k, extractCodeFromEmail sa m = some c := by
  unfold attemptFind at h
  have hmem := firstSome_mem _ _ h
  rw [List.mem_map] at hmem
  obtain ⟨m, hm, hf⟩ := hmem
  exact ⟨m, hm, hf⟩

theorem searchLoopFuel_found :
    ∀ (timeout : Int) (find : Nat → Option (List Char)) (d : Nat → Int)
      (fuel : Nat) (t : Int) (att : Nat) (c : List Char) (t2 : Int) (a2 : Nat),
      searchLoopFuel timeout find d fuel t att = .found c t2 a2 → ∃ k, find k = some c := by
  intro timeout find d fuel
  induction fuel with
  | zero => intro t att c t2 a2 h; simp [searchLoopFuel] at h
  | succ fuel ih =>
    intro t att c t2 a2 h
    simp only [searchLoopFuel] at h
    by_cases hg : t < timeout ∧ att < 5
    · rw [if_pos hg] at h
      cases hf : find att with
      | some c0 =>
        rw [hf] at h
        simp only [LoopOutcome.found.injEq] at h
        exact ⟨att, by rw [hf, h.1]⟩
      | none =>
        rw [hf] at h
        by_cases hb : 5 < timeout - (t + 1 + d att) ∧ att + 1 < 5
        · rw [if_pos hb] at h
          exact ih _ _ _ _ _ h
        · rw [if_neg hb] at h
          by_cases h9 : 5 ≤ att + 1
          · rw [if_pos h9] at h; simp at h
          · rw [if_neg h9] at h; simp at h
    · rw [if_neg hg] at h; simp at h

theorem run_result_some (timeout : Int) (sa : Option Int) (env : GmailEnv) (c : List Char)
    (h : (getVerificationCodeViaImap timeout sa env).result = some c) :
    ∃ (t2 : Int) (a2 : Nat),
      searchLoop timeout (attemptFind sa env) env.extraDur = .found c t2 a2 := by
  unfold getVerificationCodeViaImap at h
  rcases hI : runImapInner timeout sa env with f | r
  · rw [hI] at h; simp at h
  · rw [hI] at h
    simp only at h
    unfold runImapInner at hI
    split at hI
    · simp at hI
    · split at hI
      · simp at hI
      · split at hI
        · simp at hI
        · split at hI
          · rename_i c2 t2 a2 heq
            split at hI
            · simp at hI
            · split at hI
              · simp at hI
              · simp only [Except.ok.injEq] at hI
                subst hI
                simp only at h
                simp only [Option.some.injEq] at h
                subst h
                exact ⟨t2, a2, heq⟩
          · split at hI
            · simp at hI
            · split at hI
              · simp at hI
              · simp only [Except.ok.injEq] at hI
                subst hI
                simp at h

/-- C2: a candidate message whose parsed Date header is earlier than
sent_after_time minus the guard is never the source of a returned
code: the per-message filter of lines 373-389 discards it (it already
discards anything earlier than sent_after_time itself), and a run of
the whole IMAP flow in which all candidate messages are that stale
returns None. -/
theorem c2_theorem :
    (∀ (lo t : Int) (M : MimeMessage), t < lo - guardSeconds →
      extractCodeFromEmail (some lo) ⟨some t, M⟩ = none)
    ∧ (∀ (lo timeout : Int) (env : GmailEnv),
      (∀ k m, m ∈ env.candidates k → ∃ tm, m.date = some tm ∧ tm < lo - guardSeconds) →
      (getVerificationCodeViaImap timeout (some lo) env).result = none) := by
  constructor
  · intro lo t M h
    have hg : guardSeconds = 120 := rfl
    rw [hg] at h
    exact stale_skip lo t M (by omega)
  · intro lo timeout env hall
    cases hres : (getVerificationCodeViaImap timeout (some lo) env).result with
    | none => rfl
    | some c =>
      exfalso
      obtain ⟨t2, a2, hL⟩ := run_result_some timeout (some lo) env c hres
      obtain ⟨k, hk⟩ := searchLoopFuel_found timeout _ _ 5 0 0 c t2 a2 hL
      obtain ⟨m, hm, hext⟩ := attemptFind_some (some lo) env k c hk
      obtain ⟨tm, hd, hlt⟩ := hall k m hm
      obtain ⟨d0, M0⟩ := m
      have hd0 : d0 = some tm := hd
      subst hd0
      have hnone : extractCodeFromEmail (some lo) ⟨some tm, M0⟩ = none := by
        have hg : guardSeconds = 120 := rfl
        rw [hg] at hlt
        exact stale_skip lo tm M0 (by omega)
      rw [hext] at hnone
      simp at hnone

/-- Witness for C2: the environment whose only candidate message was
sent at time 0 yields no code for a send window of 1000. -/
theorem c2_witness :
    (getVerificationCodeViaImap 60 (some 1000) envOldMail).result = none := by
  refine c2_theorem.2 1000 60 envOldMail ?_
  intro k m hm
  have hm2 : m = ⟨some 0, demoMime⟩ := by simpa [envOldMail] using hm
  exact ⟨0, by rw [hm2], by decide⟩

theorem dayFloor_bounds (x : Int) : dayFloor x ≤ x ∧ x - dayFloor x < 86400 := by
  unfold dayFloor
  have h1 : 0 ≤ x.emod 86400 := Int.emod_nonneg x (by norm_num)
  have h2 : x.emod 86400 < 86400 := Int.emod_lt_of_pos x (by norm_num)
  omega

/-- C3 (amended): the IMAP SINCE bound is built from sent_after_time
minus the 120-second guard (day-floored by the date-only format), or
from now minus 5 minutes when no send window is given; but the
per-message staleness test of line 381 compares against
sent_after_time itself, so a candidate sent inside the guard interval
(between sendWindow - guard and sendWindow) is discarded, not kept
eligible. -/
theorem c3_amended :
    ∀ (now lo t : Int) (M : MimeMessage),
    (searchSinceBound now (some lo) ≤ lo - guardSeconds ∧
      lo - guardSeconds - searchSinceBound now (some lo) < 86400)
    ∧ (searchSinceBound now none ≤ now - 300 ∧
      now - 300 - searchSinceBound now none < 86400)
    ∧ extractCodeFromEmail (some lo) ⟨some t, M⟩ = (if t < lo then none else extractFromBody M)
    ∧ (lo - guardSeconds ≤ t → t < lo →
      extractCodeFromEmail (some lo) ⟨some t, M⟩ = none) := by
  intro now lo t M
  refine ⟨dayFloor_bounds _, dayFloor_bounds _, rfl, ?_⟩
  intro _ h2
  exact stale_skip lo t M h2

/-- Counterexample to C3 as stated: a message sent 60 seconds before
the send window (inside the guard interval, so the claim says it
remains eligible, and its body does carry an extractable code) is
discarded by the per-message filter. -/
theorem c3_counterexample :
    extractFromBody demoMime = some ("482913".data)
    ∧ ((1000000 : Int) - guardSeconds ≤ 999940 ∧ (999940 : Int) < 1000000)
    ∧ extractCodeFromEmail (some 1000000) ⟨some 999940, demoMime⟩ = none := by
  exact ⟨by decide, by decide, by decide⟩

/-- Witness for C3 at a concrete in-guard-window timestamp. -/
theorem c3_witness :
    extractCodeFromEmail (some 1000000) ⟨some 999940, demoMime⟩ = none :=
  (c3_amended 0 1000000 999940 demoMime).2.2.2 (by decide) (by decide)

theorem retryLoop_all_none (poll : Nat → Option (List Char)) (hp : ∀ i, poll i = none) :
    verificationRetryLoop poll = (5, none) := by
  simp [verificationRetryLoop, verificationRetryLoopFuel, hp]

/-- C1 (amended): on the verification-required page the login flow
invokes the poller with a 60-second timeout and up to five outer
retries, but it records no send-trigger time and passes no
sent_after_time (line 745), so the per-message date filter is disabled
and the poller accepts mail regardless of its send time relative to
the trigger. -/
theorem c1_amended :
    verificationPollerCall = ⟨60, none⟩
    ∧ (∀ (d : Option Int) (M : MimeMessage),
      extractCodeFromEmail none ⟨d, M⟩ = extractFromBody M)
    ∧ (∀ poll : Nat → Option (List Char), (∀ i, poll i = none) →
      verificationRetryLoop poll = (5, none)) := by
  refine ⟨rfl, ?_, retryLoop_all_none⟩
  intro d M
  cases d <;> rfl

/-- Counterexample to C1 as stated: the actual invocation carries no
send-trigger lower bound, and under it the flow returns a code
extracted from a message whose declared send time is 0, i.e. long
before any trigger. -/
theorem c1_counterexample :
    verificationPollerCall.sentAfterTime = none
    ∧ verificationPollerCall.timeout = 60
    ∧ (getVerificationCodeViaImap verificationPollerCall.timeout
        verificationPollerCall.sentAfterTime envOldMail).result = some ("482913".data) := by
  exact ⟨rfl, rfl, by decide⟩

/-- Witness for C1: the retry loop performs all five invocations when
the poller keeps returning None. -/
theorem c1_witness :
    verificationRetryLoop (fun _ => none) = (5, none) :=
  c1_amended.2.2 (fun _ => none) (fun _ => rfl)

theorem foldl_addPart (ps : List MimePart) :
    ∀ acc : List Char, ps.foldl addPart acc = acc ++ (ps.filterMap textPartContent).flatten := by
  induction ps with
  | nil => intro acc; simp
  | cons p ps ih =>
    intro acc
    simp only [List.foldl_cons, List.filterMap_cons]
    by_cases h1 : substrOf ("attachment".data) p.disposition = true
    · simp [addPart, textPartContent, h1, ih]
    · by_cases h2 : (p.ctype == "text/plain".data || p.ctype == "text/html".data) = true
      · cases hp : p.payload with
        | some s =>
          by_cases h3 : s = []
          · subst h3
            simp [addPart, textPartContent, h1, h2, hp, ih]
          · simp [addPart, textPartContent, h1, h2, hp, h3, ih, List.append_assoc]
        | none => simp [addPart, textPartContent, h1, h2, hp, ih]
      · simp [addPart, textPartContent, h1, h2, ih]

/-- C5 (amended): for a multipart message the body extractor skips
attachment parts and concatenates the payloads of all text/plain and
text/html parts in traversal order, with no preference for plain text
and no markup stripping (an empty result when no textual part exists);
a single-part message returns its decoded payload as is, even a
missing one (None). -/
theorem c5_amended :
    (∀ parts : List MimePart,
      getEmailBody (.multipart parts) = some ((parts.filterMap textPartContent).flatten))
    ∧ (∀ p : Option (List Char), getEmailBody (.single p) = p) := by
  constructor
  · intro parts
    show some (parts.foldl addPart []) = _
    rw [foldl_addPart parts []]
    rw [List.nil_append]
  · intro p; rfl

/-- Counterexample to C5 as stated: with an HTML part before a plain
part the extractor returns both concatenated (markup included), not
the preferred plain text; with only an HTML part the markup is kept,
not stripped. -/
theorem c5_counterexample :
    getEmailBody (.multipart [htmlPart, plainPart]) = some ("<p>H</p>P".data)
    ∧ ("<p>H</p>P".data ≠ "P".data)
    ∧ getEmailBody (.multipart [htmlPart]) = some ("<p>H</p>".data) := by
  exact ⟨by decide, by decide, by decide⟩

theorem searchLoopFuel_exhausted :
    ∀ (timeout : Int) (find : Nat → Option (List Char)) (d : Nat → Int)
      (fuel att : Nat) (t t2 : Int) (n : Nat),
      5 ≤ att + fuel →
      searchLoopFuel timeout find d fuel t att = .exhausted t2 n →
      timeout ≤ t2 ∨ 5 ≤ n ∨ timeout - t2 ≤ 5 := by
  intro timeout find d fuel
  induction fuel with
  | zero =>
    intro att t t2 n h5 hE
    simp only [searchLoopFuel, LoopOutcome.exhausted.injEq] at hE
    right; left; omega
  | succ fuel ih =>
    intro att t t2 n h5 hE
    simp only [searchLoopFuel] at hE
    by_cases hg : t < timeout ∧ att < 5
    · rw [if_pos hg] at hE
      cases hf : find att with
      | some c => rw [hf] at hE; simp at hE
      | none =>
        rw [hf] at hE
        by_cases hb : 5 < timeout - (t + 1 + d att) ∧ att + 1 < 5
        · rw [if_pos hb] at hE
          exact ih (att + 1) _ t2 n (by omega) hE
        · rw [if_neg hb] at hE
          have hE2 : LoopOutcome.exhausted (t + 1 + d att) (att + 1) = .exhausted t2 n := by
            by_cases h9 : 5 ≤ att + 1
            · rwa [if_pos h9] at hE
            · rwa [if_neg h9] at hE
          simp only [LoopOutcome.exhausted.injEq] at hE2
          obtain ⟨ht2, hn⟩ := hE2
          rcases not_and_or.mp hb with hA | hB
          · right; right; omega
          · right; left; omega
    · rw [if_neg hg] at hE
      simp only [LoopOutcome.exhausted.injEq] at hE
      obtain ⟨ht2, hn⟩ := hE
      rcases not_and_or.mp hg with hA | hB
      · left; omega
      · right; left; omega

/-- C8 (amended): the search loop gives up with None when the timeout
has elapsed or the five attempts are exhausted, or additionally when
at most 5 seconds of the budget remain after a failed attempt (the
early break of lines 262-264); it still returns a code immediately in
the first attempt that finds one. -/
theorem c8_amended :
    ∀ (timeout : Int) (find : Nat → Option (List Char)) (d : Nat → Int),
    (∀ (t2 : Int) (n : Nat), searchLoop timeout find d = .exhausted t2 n →
      timeout ≤ t2 ∨ 5 ≤ n ∨ timeout - t2 ≤ 5)
    ∧ (∀ c : List Char, (0 : Int) < timeout → find 0 = some c →
      searchLoop timeout find d = .found c (1 + d 0) 1) := by
  intro timeout find d
  constructor
  · intro t2 n h
    exact searchLoopFuel_exhausted timeout find d 5 0 0 t2 n (by omega) h
  · intro c h0 hc
    show searchLoopFuel timeout find d 5 0 0 = _
    simp only [searchLoopFuel]
    rw [if_pos ⟨h0, by omega⟩, hc]
    norm_num

/-- Counterexample to C8 as stated: with a 10-second timeout and no
code arriving, the loop stops after 2 attempts and 7 elapsed seconds,
although neither the timeout (10s) nor the attempt bound (5) has been
reached. -/
theorem c8_counterexample :
    searchLoop 10 (fun _ => none) (fun _ => 0) = .exhausted 7 2
    ∧ ((7 : Int) < 10) ∧ (2 < 5) := by
  exact ⟨by decide, by decide, by decide⟩

/-- Witness for C8: an immediately available code is returned in the
first attempt. -/
theorem c8_witness :
    searchLoop 10 (fun _ => some ("482913".data)) (fun _ => 0) =
      .found ("482913".data) 1 1 := by
  have h := (c8_amended 10 (fun _ => some ("482913".data)) (fun _ => 0)).2
    ("482913".data) (by norm_num) rfl
  simpa using h

/-- C6 (amended): within one acquisition call a login failure whose
message does not contain "SSL" (credential rejection included) is not
retried at the authentication loop and aborts the call; but the raised
error is caught at the call boundary and converted to None instead of
propagating, and the login flow then re-invokes the whole acquisition
(re-attempting authentication) up to five times before giving up. -/
theorem c6_amended :
    ∀ (timeout : Int) (sa : Option Int) (env : GmailEnv) (msg : List Char),
    connectLoopOk env = true →
    env.loginErr 0 = some msg →
    substrOf ("SSL".data) msg = false →
    authLoop env.loginErr = (1, some msg)
    ∧ getVerificationCodeViaImap timeout sa env =
        { result := none, loginAttempts := 1, sessionOpen := true }
    ∧ (∀ poll : Nat → Option (List Char), (∀ i, poll i = none) →
      verificationRetryLoop poll = (5, none)) := by
  intro timeout sa env msg hc hl hs
  have hA : authLoop env.loginErr = (1, some msg) := by
    have hcond : ¬ (0 < 2 - 1 ∧ substrOf ("SSL".data) msg = true) := by
      rintro ⟨h1, h2⟩
      rw [hs] at h2
      exact absurd h2 (by simp)
    simp only [authLoop, authLoopFuel, hl]
    rw [if_neg hcond]
  refine ⟨hA, ?_, retryLoop_all_none⟩
  simp [getVerificationCodeViaImap, runImapInner, hc, hA]

/-- Counterexample to C6 as stated: with every login attempt rejected
by AUTHENTICATIONFAILED, the call returns plain None (no propagated
error, and the not-logged-out connection stays behind), and the login
flow goes on to make all five outer invocations instead of
terminating at the first rejection. -/
theorem c6_counterexample :
    getVerificationCodeViaImap 60 none envAuthFail =
      { result := none, loginAttempts := 1, sessionOpen := true }
    ∧ verificationRetryLoop
        (fun _ => (getVerificationCodeViaImap 60 none envAuthFail).result) = (5, none) := by
  exact ⟨by decide, by decide⟩

/-- Witness for C6 at the concrete rejected-credentials environment. -/
theorem c6_witness :
    getVerificationCodeViaImap 60 none envAuthFail =
      { result := none, loginAttempts := 1, sessionOpen := true } :=
  (c6_amended 60 none envAuthFail
    ("[AUTHENTICATIONFAILED] Invalid credentials (Failure)".data)
    (by decide) rfl (by decide)).2.1

/-- C7 (amended): teardown errors never surface as exceptions (the
outer handler suppresses them), and when connect, login and select
succeed and the loop finds a code, a clean close and logout return the
code with the session closed — but a failing close loses the
already-retrieved code (None is returned) and leaves the session
open. -/
theorem c7_amended :
    ∀ (timeout : Int) (sa : Option Int) (env : GmailEnv)
      (c : List Char) (t : Int) (a n : Nat),
    connectLoopOk env = true →
    authLoop env.loginErr = (n, none) →
    env.selectFail = false →
    searchLoop timeout (attemptFind sa env) env.extraDur = .found c t a →
    (env.closeFail = false → env.logoutFail = false →
      getVerificationCodeViaImap timeout sa env =
        { result := some c, loginAttempts := n, sessionOpen := false })
    ∧ (env.closeFail = true →
      getVerificationCodeViaImap timeout sa env =
        { result := none, loginAttempts := n, sessionOpen := true }) := by
  intro timeout sa env c t a n h1 h2 h3 h4
  constructor
  · intro h5 h6
    simp [getVerificationCodeViaImap, runImapInner, h1, h2, h3, h4, h5, h6]
  · intro h5
    simp [getVerificationCodeViaImap, runImapInner, h1, h2, h3, h4, h5]

/-- Counterexample to C7 as stated: the same found-code run returns
the code when close succeeds, but returns None and leaves the session
un-logged-out when close raises — the cleanup failure masks the prior
success and an exit path leaves the session open. -/
theorem c7_counterexample :
    getVerificationCodeViaImap 60 none envFoundCloseFail =
      { result := none, loginAttempts := 1, sessionOpen := true }
    ∧ getVerificationCodeViaImap 60 none envFound =
      { result := some ("482913".data), loginAttempts := 1, sessionOpen := false } := by
  exact ⟨by decide, by decide⟩

/-- Witness for C7 at the concrete clean-teardown environment. -/
theorem c7_witness :
    getVerificationCodeViaImap 60 none envFound =
      { result := some ("482913".data), loginAttempts := 1, sessionOpen := false } :=
  (c7_amended 60 none envFound ("482913".data) 1 1 1
    (by decide) (by decide) rfl (by decide)).1 rfl rfl

/-- C10: the whole body of get_verification_code_via_imap sits in one
try block whose handler returns None, so every internal error is
reported as the same None an unproductive search yields; and
get_verification_code merely delegates to the IMAP method. -/
theorem c10_theorem :
    (∀ (timeout : Int) (sa : Option Int) (env : GmailEnv) (f : ImapFailure),
      runImapInner timeout sa env = .error f →
      getVerificationCodeViaImap timeout sa env =
        { result := none, loginAttempts := f.loginAttempts, sessionOpen := f.sessionOpen })
    ∧ (∀ (timeout : Int) (sa : Option Int) (env : GmailEnv),
      getVerificationCode timeout sa env = getVerificationCodeViaImap timeout sa env) := by
  constructor
  · intro timeout sa env f h
    simp [getVerificationCodeViaImap, h]
  · intro _ _ _; rfl

/-- Witness for C10: a run whose three connection attempts all fail
raises internally and the caller sees None. -/
theorem c10_witness :
    getVerificationCodeViaImap 60 none envConnFail =
      { result := none, loginAttempts := 0, sessionOpen := false } :=
  c10_theorem.1 60 none envConnFail ⟨.connErr, 0, false⟩ rfl

theorem isPrefixOf_self : ∀ l : List Char, l.isPrefixOf l = true := by
  intro l
  induction l with
  | nil => rfl
  | cons c cs ih => simp [List.isPrefixOf, ih]

theorem substrOf_append_self : ∀ (pre n : List Char), substrOf n (pre ++ n) = true := by
  intro pre
  induction pre with
  | nil =>
    intro n
    simp only [List.nil_append]
    cases n with
    | nil => rfl
    | cons c cs => simp [substrOf, isPrefixOf_self]
  | cons p ps ih =>
    intro n
    simp [substrOf, ih n]

/-- C9 (amended): the IMAP connect log masks the mailbox address,
showing its first three and last ten characters with the middle
dropped, but the verification flow logs the full mailbox address when
it fills the email field, so the mailbox account identifier does
appear unmasked in the log. -/
theorem c9_amended :
    (∀ email : List Char, substrOf email (fillEmailLogLine email) = true)
    ∧ (∀ email : List Char, 13 < email.length →
      ∃ mid : List Char, mid ≠ [] ∧
        email = email.take 3 ++ mid ++ email.drop (email.length - 10) ∧
        connectLogLine email = "正在连接Gmail IMAP服务器 (邮箱: ".data ++ email.take 3 ++
          "***".data ++ email.drop (email.length - 10) ++ ")".data) := by
  constructor
  · intro email
    exact substrOf_append_self ("已输入邮箱地址: ".data) email
  · intro email h
    refine ⟨(email.drop 3).take (email.length - 13), ?_, ?_, rfl⟩
    · have hlen : ((email.drop 3).take (email.length - 13)).length = email.length - 13 := by
        simp only [List.length_take, List.length_drop]
        omega
      intro hnil
      rw [hnil] at hlen
      simp at hlen
      omega
    · have hdd : email.drop (email.length - 10) = (email.drop 3).drop (email.length - 13) := by
        rw [List.drop_drop]
        congr 1
        omega
      rw [List.append_assoc, hdd, List.take_append_drop, List.take_append_drop]

/-- Counterexample to C9 as stated: the email-field log line contains
the full mailbox address, unmasked. -/
theorem c9_counterexample :
    fillEmailLogLine ("user@example.com".data) = ("已输入邮箱地址: user@example.com".data)
    ∧ substrOf ("user@example.com".data)
        (fillEmailLogLine ("user@example.com".data)) = true := by
  exact ⟨by decide, by decide⟩

/-- Witness for C9 at a concrete 16-character address. -/
theorem c9_witness :
    ∃ mid : List Char, mid ≠ [] ∧
      ("user@example.com".data) = ("user@example.com".data).take 3 ++ mid ++
        ("user@example.com".data).drop (("user@example.com".data).length - 10) ∧
      connectLogLine ("user@example.com".data) =
        "正在连接Gmail IMAP服务器 (邮箱: ".data ++ ("user@example.com".data).take 3 ++
        "***".data ++ ("user@example.com".data).drop (("user@example.com".data).length - 10) ++
        ")".data :=
  c9_amended.2 ("user@example.com".data) (by decide)
